import Mathlib

/-!
# Verification of the chess-video sound scheduling engine

Shallow embedding of `src/lib/sound-effects-config.ts` and
`src/lib/sound-effect-triggers.ts` (the scheduling/conflict-resolution core).

Modelling conventions:
* JS numbers that carry evaluations and volumes are modelled as `ℚ`
  (all computations the engine performs on them are exact on the inputs of
  interest); frame numbers and priorities are modelled as `ℤ`.
* `Math.random()`-based selection (`getRandomSound`) is modelled by an
  injected index `randIndex`; the source computes
  `Math.floor(Math.random() * sounds.length)`, i.e. an arbitrary index
  `< sounds.length`, which we model as `randIndex % sounds.length`.
* The external `chess.js` engine (used only inside `parseMoveForAnalysis`)
  is modelled as an oracle `ℕ → MoveFacts` giving, for each move index, the
  facts the engine reports after playing that move.
* `Array.prototype.sort` with a consistent comparator is a stable sort; the
  stable sorted permutation is unique, so it is modelled by Mathlib's stable
  `List.insertionSort` on the corresponding non-strict relation.
* JS truthiness: `sound.volume || 0.5` treats `0` as absent, and
  `analysis.capturedPiece` is falsy for `undefined` and for the empty string.
-/

/-- The closed set of sound-effect categories (`SoundEffectCategory`). -/
inductive SoundEffectCategory : Type
  | piece_capture
  | crowd_reaction
  | atmosphere
  | clock
  | special_moves
deriving DecidableEq, Repr

open SoundEffectCategory

/-- One catalog entry (`SoundEffect` in `sound-effects-config.ts`). -/
structure SoundEffect : Type where
  id : String
  category : SoundEffectCategory
  path : String
  volume : Option ℚ
  description : String
deriving DecidableEq, Repr

/-- `SOUND_EFFECTS.piece_capture[0]`. -/
def capturePawnEffect : SoundEffect :=
  ⟨"capture-pawn", piece_capture, "sounds/pieces/capture-pawn.mp3", some 0.4,
   "Pawn capture sound"⟩

/-- `SOUND_EFFECTS.piece_capture[1]`. -/
def captureMinorEffect : SoundEffect :=
  ⟨"capture-minor", piece_capture, "sounds/pieces/capture-minor.mp3", some 0.45,
   "Knight/Bishop capture sound"⟩

/-- `SOUND_EFFECTS.piece_capture[2]`. -/
def captureRookEffect : SoundEffect :=
  ⟨"capture-rook", piece_capture, "sounds/pieces/capture-rook.mp3", some 0.5,
   "Rook capture sound"⟩

/-- `SOUND_EFFECTS.piece_capture[3]`. -/
def captureQueenEffect : SoundEffect :=
  ⟨"capture-queen", piece_capture, "sounds/pieces/capture-queen.mp3", some 0.6,
   "Queen capture - dramatic"⟩

/-- `SOUND_EFFECTS.crowd_reaction[2]`. -/
def applause01Effect : SoundEffect :=
  ⟨"applause-01", crowd_reaction, "sounds/crowd/applause-01.mp3", some 0.3,
   "Applause for brilliant moves"⟩

/-- `SOUND_EFFECTS.atmosphere[0]`. -/
def tournamentHallEffect : SoundEffect :=
  ⟨"tournament-hall", atmosphere, "sounds/atmosphere/tournament-hall.mp3", some 0.15,
   "Background tournament ambience"⟩

/-- `SOUND_EFFECTS.special_moves[0]`. -/
def checkEffect : SoundEffect :=
  ⟨"check", special_moves, "sounds/special/check.mp3", some 0.4, "Check sound"⟩

/-- `SOUND_EFFECTS.special_moves[1]`. -/
def checkmateEffect : SoundEffect :=
  ⟨"checkmate", special_moves, "sounds/special/checkmate.mp3", some 0.5, "Checkmate sound"⟩

/-- `SOUND_EFFECTS.special_moves[2]`. -/
def castleEffect : SoundEffect :=
  ⟨"castle", special_moves, "sounds/special/castle.mp3", some 0.35, "Castling sound"⟩

/-- `SOUND_EFFECTS.special_moves[3]`. -/
def promotionEffect : SoundEffect :=
  ⟨"promotion", special_moves, "sounds/special/promotion.mp3", some 0.4, "Pawn promotion sound"⟩

/-- The sound-effects catalog `SOUND_EFFECTS`, as a map from category to the
entries listed under that category key. -/
def SOUND_EFFECTS : SoundEffectCategory → List SoundEffect
  | piece_capture =>
    [capturePawnEffect, captureMinorEffect, captureRookEffect, captureQueenEffect]
  | crowd_reaction =>
    [⟨"gasp-01", crowd_reaction, "sounds/crowd/gasp-01.mp3", some 0.35,
      "Crowd gasp for blunders"⟩,
     ⟨"gasp-02", crowd_reaction, "sounds/crowd/gasp-02.mp3", some 0.35,
      "Crowd gasp variant"⟩,
     applause01Effect,
     ⟨"applause-02", crowd_reaction, "sounds/crowd/applause-02.mp3", some 0.3,
      "Applause variant"⟩,
     ⟨"murmur", crowd_reaction, "sounds/crowd/murmur.mp3", some 0.2,
      "Low crowd murmur for tense moments"⟩,
     ⟨"cheer", crowd_reaction, "sounds/crowd/cheer.mp3", some 0.4,
      "Victory cheer for checkmate"⟩]
  | atmosphere =>
    [tournamentHallEffect,
     ⟨"chess-pieces-background", atmosphere, "sounds/atmosphere/pieces-background.mp3", some 0.1,
      "Subtle background piece movement sounds"⟩]
  | clock =>
    [⟨"clock-tick", clock, "sounds/clock/tick.mp3", some 0.25,
      "Chess clock ticking"⟩,
     ⟨"clock-tick-fast", clock, "sounds/clock/tick-fast.mp3", some 0.3,
      "Faster ticking for time pressure"⟩,
     ⟨"clock-press", clock, "sounds/clock/press.mp3", some 0.3,
      "Clock press sound"⟩]
  | special_moves =>
    [checkEffect, checkmateEffect, castleEffect, promotionEffect]

/-- Iteration order of `Object.values(SOUND_EFFECTS)` (key insertion order). -/
def soundEffectCategoriesInOrder : List SoundEffectCategory :=
  [piece_capture, crowd_reaction, atmosphere, clock, special_moves]

/-- `getSoundEffect`: first catalog entry (in category insertion order) whose
id matches. -/
def getSoundEffect (id : String) : Option SoundEffect :=
  (soundEffectCategoriesInOrder.flatMap SOUND_EFFECTS).find? (fun e => e.id = id)

/-- `getRandomSound`: `sounds[Math.floor(Math.random() * sounds.length)]`,
with the random draw modelled by the injected index `randIndex` (reduced
modulo the category size, as the floored draw is an arbitrary in-range
index). -/
def getRandomSound (randIndex : ℕ) (category : SoundEffectCategory) : SoundEffect :=
  let sounds := SOUND_EFFECTS category
  sounds.get ⟨randIndex % sounds.length, Nat.mod_lt _ (by cases category <;> decide)⟩

/-- JS `String.prototype.toLowerCase` (per-character lowercasing; the piece
codes involved are plain ASCII letters). -/
def jsToLower (s : String) : String :=
  String.mk (s.toList.map Char.toLower)

/-- `getCaptureSound`: capture cue chosen by captured-piece value tier.
The named effects are `SOUND_EFFECTS.piece_capture[0..3]` in index order. -/
def getCaptureSound (capturedPiece : String) : SoundEffect :=
  let piece := jsToLower capturedPiece
  if piece = "p" then capturePawnEffect
  else if piece = "n" ∨ piece = "b" then captureMinorEffect
  else if piece = "r" then captureRookEffect
  else if piece = "q" then captureQueenEffect
  else capturePawnEffect

/-- `SoundEffectSettings`. -/
structure SoundEffectSettings : Type where
  enabled : Bool
  capturesEnabled : Bool
  crowdEnabled : Bool
  atmosphereEnabled : Bool
  clockEnabled : Bool
  specialMovesEnabled : Bool
  masterVolume : ℚ
deriving DecidableEq, Repr

/-- `DEFAULT_SOUND_SETTINGS`. -/
def DEFAULT_SOUND_SETTINGS : SoundEffectSettings :=
  ⟨true, true, true, true, false, true, 1⟩

/-- `MoveAnalysis`. -/
structure MoveAnalysis : Type where
  move : String
  fen : String
  evaluation : Option ℚ
  previousEvaluation : Option ℚ
  capturedPiece : Option String
  isCheck : Bool
  isCheckmate : Bool
  isCastle : Bool
  isPromotion : Bool
  moveNumber : ℕ
deriving DecidableEq, Repr

/-- JS `String.prototype.includes`: `sub` occurs contiguously in `s`. -/
def strIncludes (s sub : String) : Bool :=
  (List.range (s.toList.length + 1)).any fun i =>
    decide ((s.toList.drop i).take sub.toList.length = sub.toList)

/-- JS `x || d` on an optional numeric field: `0` and `undefined` both fall
back to the default `d`. -/
def jsOrDefault (v : Option ℚ) (d : ℚ) : ℚ :=
  match v with
  | some x => if x = 0 then d else x
  | none => d

/-- The final `sounds.map` step of `analyzeMoveForSounds`:
`volume: (sound.volume || 0.5) * settings.masterVolume`. -/
def applyMasterVolume (settings : SoundEffectSettings) (sound : SoundEffect) : SoundEffect :=
  { sound with volume := some (jsOrDefault sound.volume 0.5 * settings.masterVolume) }

/-- The special-moves block of `analyzeMoveForSounds` (the pushes performed
under `settings.specialMovesEnabled`, in their `if/else if` precedence). -/
def specialMoveSounds (analysis : MoveAnalysis) (settings : SoundEffectSettings) :
    List SoundEffect :=
  if settings.specialMovesEnabled then
    if analysis.isCheckmate then (getSoundEffect "checkmate").toList
    else if analysis.isCheck then (getSoundEffect "check").toList
    else if analysis.isCastle then (getSoundEffect "castle").toList
    else if analysis.isPromotion then (getSoundEffect "promotion").toList
    else []
  else []

/-- The captures block of `analyzeMoveForSounds`
(`settings.capturesEnabled && analysis.capturedPiece`, with JS truthiness of
the piece-code string). -/
def captureBlockSounds (analysis : MoveAnalysis) (settings : SoundEffectSettings) :
    List SoundEffect :=
  match analysis.capturedPiece with
  | some piece =>
    if settings.capturesEnabled && piece ≠ "" then [getCaptureSound piece] else []
  | none => []

/-- The crowd-reaction block of `analyzeMoveForSounds`.  `randIndex` is the
injected random draw of the `getRandomSound` call. -/
def crowdBlockSounds (analysis : MoveAnalysis) (settings : SoundEffectSettings)
    (randIndex : ℕ) : List SoundEffect :=
  match analysis.evaluation, analysis.previousEvaluation with
  | some ev, some prevEv =>
    if settings.crowdEnabled then
      let evalChange := |ev - prevEv|
      if evalChange > 200 then [getRandomSound randIndex crowd_reaction]
      else if ev - prevEv > 150 then
        ((SOUND_EFFECTS crowd_reaction).find? (fun s => strIncludes s.id "applause")).toList
      else []
    else []
  | _, _ => []

/-- `analyzeMoveForSounds`: the `sounds` array is built by the three push
blocks in order, then mapped through the master-volume scaling. -/
def analyzeMoveForSounds (analysis : MoveAnalysis) (settings : SoundEffectSettings)
    (randIndex : ℕ) : List SoundEffect :=
  if !settings.enabled then []
  else
    (specialMoveSounds analysis settings ++ captureBlockSounds analysis settings ++
      crowdBlockSounds analysis settings randIndex).map (applyMasterVolume settings)

/-- Game phase, as the first argument of `getAtmosphereSounds`. -/
inductive GamePhase : Type
  | opening
  | middlegame
  | endgame
deriving DecidableEq, Repr

/-- `getAtmosphereSounds`. -/
def getAtmosphereSounds (gamePhase : GamePhase) (settings : SoundEffectSettings) :
    List SoundEffect :=
  if !settings.atmosphereEnabled || !settings.enabled then []
  else
    match getSoundEffect "tournament-hall" with
    | some hallSound =>
      [{ hallSound with volume := some (jsOrDefault hallSound.volume 0.15 * settings.masterVolume) }]
    | none => []

/-- `SoundTrigger`. -/
structure SoundTrigger : Type where
  soundEffect : SoundEffect
  startFrame : ℤ
  priority : ℤ
deriving DecidableEq, Repr

/-- `getPriority`: priority rank from the cue's category. -/
def getPriority (sound : SoundEffect) : ℤ :=
  match sound.category with
  | special_moves => 5
  | crowd_reaction => 4
  | piece_capture => 3
  | clock => 2
  | atmosphere => 1

/-- `calculateSoundFrameTiming`.  The `fps` argument is accepted (as in the
source) but unused by the body. -/
def calculateSoundFrameTiming (moveIndex fps introDuration frameDurationPerMove : ℕ) : ℤ :=
  (introDuration : ℤ) + (moveIndex : ℤ) * (frameDurationPerMove : ℤ)

/-- The facts the external `chess.js` engine reports for one played move
(the fields of `chess.move(...)` / `chess.isCheck()` etc. that
`parseMoveForAnalysis` reads).  `chess.js` is an external dependency, so it
is modelled as an oracle supplying these facts per move index. -/
structure MoveFacts : Type where
  fen : String
  capturedPiece : Option String
  isCheck : Bool
  isCheckmate : Bool
  isCastle : Bool
  isPromotion : Bool
deriving DecidableEq, Repr

/-- `parseMoveForAnalysis`, with the chess-engine outcome supplied as
`facts`. -/
def parseMoveForAnalysis (facts : MoveFacts) (move : String) (moveNumber : ℕ)
    (previousEval currentEval : Option ℚ) : MoveAnalysis :=
  { move := move
    fen := facts.fen
    evaluation := currentEval
    previousEvaluation := previousEval
    capturedPiece := facts.capturedPiece
    isCheck := facts.isCheck
    isCheckmate := facts.isCheckmate
    isCastle := facts.isCastle
    isPromotion := facts.isPromotion
    moveNumber := moveNumber }

/-- JS array indexing `evaluations[index]`: `undefined` out of range. -/
def evalAt (evaluations : List (Option ℚ)) (i : ℕ) : Option ℚ :=
  (evaluations.get? i).join

/-- The event loop of `generateSoundSchedule` (`moves.forEach(...)`): walks
the moves from `index`, threading `previousEval`, and accumulates the
stamped triggers of every event in production order.  `oracle i` gives the
chess-engine facts for the move at absolute index `i`, and `rand i` the
random draw used by that event's classifier call. -/
def generateTriggersFrom (oracle : ℕ → MoveFacts) (rand : ℕ → ℕ)
    (evaluations : List (Option ℚ)) (settings : SoundEffectSettings) (fps : ℕ) :
    ℕ → List String → Option ℚ → List SoundTrigger
  | _, [], _ => []
  | index, move :: rest, previousEval =>
    let currentEval := evalAt evaluations index
    let analysis := parseMoveForAnalysis (oracle index) move (index + 1) previousEval currentEval
    let sounds := analyzeMoveForSounds analysis settings (rand index)
    let frameStart := calculateSoundFrameTiming index fps 90 30
    (sounds.enum.map fun p =>
      { soundEffect := p.2, startFrame := frameStart + (p.1 : ℤ) * 5, priority := getPriority p.2 }) ++
      generateTriggersFrom oracle rand evaluations settings fps (index + 1) rest currentEval

/-- The comparator of the final `triggers.sort(...)`: `a` may precede `b`
iff the comparator does not strictly order `b` before `a` — ascending start
frame, then descending priority. -/
def schedOrder (a b : SoundTrigger) : Prop :=
  a.startFrame < b.startFrame ∨ (a.startFrame = b.startFrame ∧ b.priority ≤ a.priority)

instance : DecidableRel schedOrder := by
  intro a b
  unfold schedOrder
  infer_instance

instance : IsTotal SoundTrigger schedOrder := by
  constructor
  intro a b
  unfold schedOrder
  omega

instance : IsTrans SoundTrigger schedOrder := by
  constructor
  intro a b c
  unfold schedOrder
  omega

/-- `generateSoundSchedule`.  `Array.prototype.sort` with this (consistent)
comparator is stable, and the stable sorted permutation is unique, so it is
modelled by the stable `List.insertionSort` on `schedOrder`. -/
def generateSoundSchedule (oracle : ℕ → MoveFacts) (rand : ℕ → ℕ) (moves : List String)
    (evaluations : List (Option ℚ)) (settings : SoundEffectSettings) (fps : ℕ) :
    List SoundTrigger :=
  (generateTriggersFrom oracle rand evaluations settings fps 0 moves none).insertionSort
    schedOrder

/-- The `filtered.some(...)` conflict test inside `filterOverlappingSounds`. -/
def hasConflict (filtered : List SoundTrigger) (trigger : SoundTrigger)
    (maxFrameDistance : ℤ) : Bool :=
  filtered.any fun existing =>
    decide (|existing.startFrame - trigger.startFrame| < maxFrameDistance) &&
      decide (trigger.priority ≤ existing.priority)

/-- `filterOverlappingSounds` (the window defaults to 15 at the call sites;
it is passed explicitly here). -/
def filterOverlappingSounds (triggers : List SoundTrigger) (maxFrameDistance : ℤ) :
    List SoundTrigger :=
  triggers.foldl
    (fun filtered trigger =>
      if hasConflict filtered trigger maxFrameDistance then filtered
      else filtered ++ [trigger])
    []

/-! ### Derived notions used to state and settle the claims -/

/-- The suppression condition of `filterOverlappingSounds`: kept cue `k`
dominates candidate `c` (within the window and of higher-or-equal
priority). -/
def dominatesWithin (W : ℤ) (k c : SoundTrigger) : Prop :=
  |k.startFrame - c.startFrame| < W ∧ c.priority ≤ k.priority

instance (W : ℤ) (k c : SoundTrigger) : Decidable (dominatesWithin W k c) := by
  unfold dominatesWithin
  infer_instance

/-- Accumulator-explicit recursion equivalent to the `forEach` loop of
`filterOverlappingSounds` (proved equal below). -/
def filterAux (W : ℤ) : List SoundTrigger → List SoundTrigger → List SoundTrigger
  | filtered, [] => filtered
  | filtered, t :: rest =>
    if hasConflict filtered t W then filterAux W filtered rest
    else filterAux W (filtered ++ [t]) rest

/-- Reference greedy Priority Resolver, written from the spec's words
(§4.3): process cues in order keeping an accumulating kept list; a candidate
`c` is kept iff no already-kept `k` satisfies
`|k.startFrame - c.startFrame| < W` and `k.priority >= c.priority`. -/
def greedyKeep (W : ℤ) : List SoundTrigger → List SoundTrigger → List SoundTrigger
  | kept, [] => kept
  | kept, c :: rest =>
    if ∃ k ∈ kept, dominatesWithin W k c then greedyKeep W kept rest
    else greedyKeep W (kept ++ [c]) rest

/-- The full reference resolver of the spec, starting from an empty kept
list. -/
def greedyFilterSpec (triggers : List SoundTrigger) (W : ℤ) : List SoundTrigger :=
  greedyKeep W [] triggers

/-- The property asserted by claim C1 of a schedule: no cue lies within the
suppression window `W` of an earlier cue of higher-or-equal priority. -/
def windowClear (W : ℤ) : List SoundTrigger → Bool
  | [] => true
  | k :: rest =>
    (rest.all fun c => !(decide (dominatesWithin W k c))) && windowClear W rest

/-- The cues of a classifier result that carry a given category. -/
def cuesInCategory (sounds : List SoundEffect) (c : SoundEffectCategory) : List SoundEffect :=
  sounds.filter fun e => decide (e.category = c)

/-- The classifier output of the event at (0-based) index `i` in a run of
`generateSoundSchedule`: the previous evaluation seen by event `i` is the
stored evaluation of event `i - 1` (none for the first event). -/
def eventSounds (oracle : ℕ → MoveFacts) (rand : ℕ → ℕ) (evaluations : List (Option ℚ))
    (settings : SoundEffectSettings) (moves : List String) (i : ℕ) : List SoundEffect :=
  analyzeMoveForSounds
    (parseMoveForAnalysis (oracle i) (moves.getD i "") (i + 1)
      (if i = 0 then none else evalAt evaluations (i - 1)) (evalAt evaluations i))
    settings (rand i)

/-! ### Concrete fixtures for counterexamples and witnesses -/

/-- Settings with every toggle on and unit master volume. -/
def allOnSettings : SoundEffectSettings := ⟨true, true, true, true, true, true, 1⟩

/-- Chess-engine oracle reporting a checkmating queen capture for every
move. -/
def oracleMateCapture : ℕ → MoveFacts := fun _ => ⟨"", some "q", false, true, false, false⟩

/-- A priority-5 trigger at frame 100. -/
def cueHighEarly : SoundTrigger := ⟨checkmateEffect, 100, 5⟩

/-- A priority-3 trigger at frame 105 (5 frames from `cueHighEarly`). -/
def cueLowLate : SoundTrigger := ⟨capturePawnEffect, 105, 3⟩

/-- A priority-3 trigger at frame 125 (20 frames from `cueLowLate`). -/
def cueLowFar : SoundTrigger := ⟨capturePawnEffect, 125, 3⟩

/-- A priority-3 trigger at frame 110 (5 frames from `cueLowLate`). -/
def cueLowNear : SoundTrigger := ⟨capturePawnEffect, 110, 3⟩

/-- An analysis of a capture event with the unrecognized piece code "x". -/
def analysisUnknownCapture : MoveAnalysis :=
  ⟨"", "", none, none, some "x", false, false, false, false, 1⟩

/-- An analysis of a checkmate event. -/
def analysisCheckmate : MoveAnalysis :=
  ⟨"", "", none, none, none, false, true, false, false, 1⟩

/-- An analysis with an evaluation jump of +220 centipawns. -/
def analysisBigSwing : MoveAnalysis :=
  ⟨"", "", some 220, some 0, none, false, false, false, false, 1⟩

/-! ### Basic lemmas about the catalog and the classifier -/

theorem applyMasterVolume_category (s : SoundEffectSettings) (e : SoundEffect) :
    (applyMasterVolume s e).category = e.category := rfl

theorem applyMasterVolume_id (s : SoundEffectSettings) (e : SoundEffect) :
    (applyMasterVolume s e).id = e.id := rfl

theorem id_comp_applyMasterVolume (s : SoundEffectSettings) :
    SoundEffect.id ∘ applyMasterVolume s = SoundEffect.id :=
  funext fun _ => rfl

theorem SOUND_EFFECTS_category_all (c : SoundEffectCategory) :
    (SOUND_EFFECTS c).all (fun e => decide (e.category = c)) = true := by
  cases c <;> decide

theorem mem_SOUND_EFFECTS_category {c : SoundEffectCategory} {e : SoundEffect}
    (h : e ∈ SOUND_EFFECTS c) : e.category = c := by
  simpa using List.all_eq_true.mp (SOUND_EFFECTS_category_all c) e h

theorem getRandomSound_mem (r : ℕ) (c : SoundEffectCategory) :
    getRandomSound r c ∈ SOUND_EFFECTS c :=
  List.get_mem _ _ _

theorem getRandomSound_category (r : ℕ) (c : SoundEffectCategory) :
    (getRandomSound r c).category = c :=
  mem_SOUND_EFFECTS_category (getRandomSound_mem r c)

theorem getSoundEffect_check : getSoundEffect "check" = some checkEffect := rfl

theorem getSoundEffect_checkmate : getSoundEffect "checkmate" = some checkmateEffect := rfl

theorem getSoundEffect_castle : getSoundEffect "castle" = some castleEffect := rfl

theorem getSoundEffect_promotion : getSoundEffect "promotion" = some promotionEffect := rfl

theorem getSoundEffect_hall : getSoundEffect "tournament-hall" = some tournamentHallEffect := rfl

theorem find_applause :
    (SOUND_EFFECTS crowd_reaction).find? (fun s => strIncludes s.id "applause") =
      some applause01Effect := rfl

theorem getCaptureSound_category (p : String) :
    (getCaptureSound p).category = piece_capture := by
  simp only [getCaptureSound]
  split_ifs <;> rfl

theorem specialMoveSounds_category {a : MoveAnalysis} {s : SoundEffectSettings} :
    ∀ e ∈ specialMoveSounds a s, e.category = special_moves := by
  unfold specialMoveSounds
  split_ifs <;> intro e he <;>
    simp only [getSoundEffect_check, getSoundEffect_checkmate, getSoundEffect_castle,
      getSoundEffect_promotion, Option.toList_some, List.mem_singleton,
      List.not_mem_nil] at he <;> first
    | exact absurd he (fun h => h)
    | (subst he; rfl)

theorem captureBlockSounds_category {a : MoveAnalysis} {s : SoundEffectSettings} :
    ∀ e ∈ captureBlockSounds a s, e.category = piece_capture := by
  intro e he
  unfold captureBlockSounds at he
  rcases ha : a.capturedPiece with _ | piece <;> rw [ha] at he
  · simp at he
  · dsimp only at he
    split_ifs at he
    · rw [List.mem_singleton] at he
      subst he
      exact getCaptureSound_category piece
    · simp at he

theorem crowdBlockSounds_category {a : MoveAnalysis} {s : SoundEffectSettings} {r : ℕ} :
    ∀ e ∈ crowdBlockSounds a s r, e.category = crowd_reaction := by
  intro e he
  unfold crowdBlockSounds at he
  rcases ha : a.evaluation with _ | ev <;> rw [ha] at he
  · simp at he
  · rcases hp : a.previousEvaluation with _ | pv <;> rw [hp] at he
    · simp at he
    · dsimp only at he
      split_ifs at he
      · rw [List.mem_singleton] at he
        subst he
        exact getRandomSound_category r crowd_reaction
      · rw [find_applause, Option.toList_some, List.mem_singleton] at he
        subst he
        rfl
      · simp at he
      · simp at he

theorem cuesInCategory_eq_nil {l : List SoundEffect} {c c' : SoundEffectCategory}
    (h : ∀ e ∈ l, e.category = c) (hne : c ≠ c') : cuesInCategory l c' = [] := by
  unfold cuesInCategory
  refine List.filter_eq_nil_iff.mpr fun e he => ?_
  simp [h e he, hne]

theorem cuesInCategory_eq_self {l : List SoundEffect} {c : SoundEffectCategory}
    (h : ∀ e ∈ l, e.category = c) : cuesInCategory l c = l := by
  unfold cuesInCategory
  refine List.filter_eq_self.mpr fun e he => ?_
  simp [h e he]

/-- With the master flag on, the per-category restriction of the classifier
output decomposes into the three push blocks. -/
theorem cuesInCategory_analyze (a : MoveAnalysis) (s : SoundEffectSettings) (r : ℕ)
    (c : SoundEffectCategory) (hen : s.enabled = true) :
    cuesInCategory (analyzeMoveForSounds a s r) c =
      (cuesInCategory (specialMoveSounds a s) c ++
        cuesInCategory (captureBlockSounds a s) c ++
        cuesInCategory (crowdBlockSounds a s r) c).map (applyMasterVolume s) := by
  unfold analyzeMoveForSounds cuesInCategory
  rw [hen]
  simp only [Bool.not_true, Bool.false_eq_true, if_false]
  rw [List.filter_map]
  have hp : ((fun e => decide (e.category = c)) ∘ applyMasterVolume s) =
      fun e => decide (e.category = c) :=
    funext fun e => by simp [applyMasterVolume_category]
  rw [hp, List.filter_append, List.filter_append]

theorem specialMoveSounds_checkmate {a : MoveAnalysis} {s : SoundEffectSettings}
    (hsp : s.specialMovesEnabled = true) (hm : a.isCheckmate = true) :
    specialMoveSounds a s = [checkmateEffect] := by
  simp [specialMoveSounds, hsp, hm, getSoundEffect_checkmate]

theorem specialMoveSounds_check {a : MoveAnalysis} {s : SoundEffectSettings}
    (hsp : s.specialMovesEnabled = true) (hm : a.isCheckmate = false)
    (hc : a.isCheck = true) : specialMoveSounds a s = [checkEffect] := by
  simp [specialMoveSounds, hsp, hm, hc, getSoundEffect_check]

theorem specialMoveSounds_castle {a : MoveAnalysis} {s : SoundEffectSettings}
    (hsp : s.specialMovesEnabled = true) (hm : a.isCheckmate = false)
    (hc : a.isCheck = false) (hca : a.isCastle = true) :
    specialMoveSounds a s = [castleEffect] := by
  simp [specialMoveSounds, hsp, hm, hc, hca, getSoundEffect_castle]

theorem specialMoveSounds_promotion {a : MoveAnalysis} {s : SoundEffectSettings}
    (hsp : s.specialMovesEnabled = true) (hm : a.isCheckmate = false)
    (hc : a.isCheck = false) (hca : a.isCastle = false) (hpr : a.isPromotion = true) :
    specialMoveSounds a s = [promotionEffect] := by
  simp [specialMoveSounds, hsp, hm, hc, hca, hpr, getSoundEffect_promotion]

theorem specialMoveSounds_length (a : MoveAnalysis) (s : SoundEffectSettings) :
    (specialMoveSounds a s).length ≤ 1 := by
  unfold specialMoveSounds
  split_ifs <;>
    simp [getSoundEffect_check, getSoundEffect_checkmate, getSoundEffect_castle,
      getSoundEffect_promotion]

theorem captureBlockSounds_some {a : MoveAnalysis} {s : SoundEffectSettings} {c : String}
    (hcap : s.capturesEnabled = true) (hp : a.capturedPiece = some c) (hne : c ≠ "") :
    captureBlockSounds a s = [getCaptureSound c] := by
  unfold captureBlockSounds
  rw [hp]
  simp [hcap, hne]

theorem crowdBlockSounds_magnitude {a : MoveAnalysis} {s : SoundEffectSettings} {r : ℕ}
    {ev pv : ℚ} (hcr : s.crowdEnabled = true) (he : a.evaluation = some ev)
    (hp : a.previousEvaluation = some pv) (hgt : 200 < |ev - pv|) :
    crowdBlockSounds a s r = [getRandomSound r crowd_reaction] := by
  unfold crowdBlockSounds
  rw [he, hp]
  simp [hcr, hgt]

/-! ### Claim C6: special-move precedence -/

/-- C6: with special moves enabled, `analyzeMoveForSounds` emits at most one
special-move cue, chosen by the fixed precedence
checkmate > check > castle > promotion; a checkmate event yields only the
checkmate cue, a non-checkmate check the check cue, a non-check castle the
castle cue, and otherwise a promotion the promotion cue. -/
theorem analyzeMoveForSounds_special_precedence (a : MoveAnalysis)
    (s : SoundEffectSettings) (r : ℕ) (hen : s.enabled = true)
    (hsp : s.specialMovesEnabled = true) :
    (cuesInCategory (analyzeMoveForSounds a s r) special_moves).length ≤ 1 ∧
    (a.isCheckmate = true →
      (cuesInCategory (analyzeMoveForSounds a s r) special_moves).map SoundEffect.id =
        ["checkmate"]) ∧
    (a.isCheckmate = false → a.isCheck = true →
      (cuesInCategory (analyzeMoveForSounds a s r) special_moves).map SoundEffect.id =
        ["check"]) ∧
    (a.isCheckmate = false → a.isCheck = false → a.isCastle = true →
      (cuesInCategory (analyzeMoveForSounds a s r) special_moves).map SoundEffect.id =
        ["castle"]) ∧
    (a.isCheckmate = false → a.isCheck = false → a.isCastle = false → a.isPromotion = true →
      (cuesInCategory (analyzeMoveForSounds a s r) special_moves).map SoundEffect.id =
        ["promotion"]) := by
  have hdecomp := cuesInCategory_analyze a s r special_moves hen
  rw [cuesInCategory_eq_nil captureBlockSounds_category (by decide),
    cuesInCategory_eq_nil crowdBlockSounds_category (by decide)] at hdecomp
  refine ⟨?_, ?_, ?_, ?_, ?_⟩
  · rw [hdecomp]
    simp only [List.append_nil, List.length_map]
    exact le_trans (List.length_filter_le _ _) (specialMoveSounds_length a s)
  · intro hm
    rw [hdecomp, specialMoveSounds_checkmate hsp hm, List.map_map, id_comp_applyMasterVolume]
    rfl
  · intro hm hc
    rw [hdecomp, specialMoveSounds_check hsp hm hc, List.map_map, id_comp_applyMasterVolume]
    rfl
  · intro hm hc hca
    rw [hdecomp, specialMoveSounds_castle hsp hm hc hca, List.map_map,
      id_comp_applyMasterVolume]
    rfl
  · intro hm hc hca hpr
    rw [hdecomp, specialMoveSounds_promotion hsp hm hc hca hpr, List.map_map,
      id_comp_applyMasterVolume]
    rfl

/-- Witness for C6 at a concrete checkmate event. -/
theorem analyzeMoveForSounds_special_precedence_witness :
    (cuesInCategory (analyzeMoveForSounds analysisCheckmate allOnSettings 0)
        special_moves).length ≤ 1 ∧
    (cuesInCategory (analyzeMoveForSounds analysisCheckmate allOnSettings 0)
        special_moves).map SoundEffect.id = ["checkmate"] :=
  ⟨(analyzeMoveForSounds_special_precedence analysisCheckmate allOnSettings 0 rfl rfl).1,
    (analyzeMoveForSounds_special_precedence analysisCheckmate allOnSettings 0 rfl rfl).2.1 rfl⟩

/-! ### Claim C7: capture-tier selection is total and never fails -/

/-- C7: `getCaptureSound` is a total function of the piece code — 'p' maps
to tier 0 (pawn), 'n'/'b' to tier 1 (minor), 'r' to tier 2, 'q' to tier 3,
and every other code falls back to tier 0 — and a capture event (non-empty
piece code) always yields exactly one capture-category cue. -/
theorem getCaptureSound_total_tiers :
    getCaptureSound "p" = capturePawnEffect ∧
    getCaptureSound "n" = captureMinorEffect ∧
    getCaptureSound "b" = captureMinorEffect ∧
    getCaptureSound "r" = captureRookEffect ∧
    getCaptureSound "q" = captureQueenEffect ∧
    (∀ code : String, jsToLower code ≠ "p" → jsToLower code ≠ "n" → jsToLower code ≠ "b" →
      jsToLower code ≠ "r" → jsToLower code ≠ "q" → getCaptureSound code = capturePawnEffect) ∧
    (∀ (a : MoveAnalysis) (s : SoundEffectSettings) (r : ℕ) (c : String),
      s.enabled = true → s.capturesEnabled = true → a.capturedPiece = some c → c ≠ "" →
      (cuesInCategory (analyzeMoveForSounds a s r) piece_capture).length = 1) := by
  refine ⟨rfl, rfl, rfl, rfl, rfl, ?_, ?_⟩
  · intro code h1 h2 h3 h4 h5
    simp [getCaptureSound, h1, h2, h3, h4, h5]
  · intro a s r c hen hcap hp hne
    rw [cuesInCategory_analyze a s r piece_capture hen,
      cuesInCategory_eq_nil specialMoveSounds_category (by decide),
      cuesInCategory_eq_nil crowdBlockSounds_category (by decide),
      captureBlockSounds_some hcap hp hne,
      cuesInCategory_eq_self (by
        intro e he
        rw [List.mem_singleton] at he
        subst he
        exact getCaptureSound_category c)]
    simp

/-- Witness for C7 at the unrecognized piece code "x". -/
theorem getCaptureSound_total_tiers_witness :
    jsToLower "x" ≠ "p" ∧ getCaptureSound "x" = capturePawnEffect ∧
    (cuesInCategory (analyzeMoveForSounds analysisUnknownCapture allOnSettings 0)
        piece_capture).length = 1 :=
  ⟨by decide,
    getCaptureSound_total_tiers.2.2.2.2.2.1 "x" (by decide) (by decide) (by decide)
      (by decide) (by decide),
    getCaptureSound_total_tiers.2.2.2.2.2.2 analysisUnknownCapture allOnSettings 0 "x"
      rfl rfl rfl (by decide)⟩

/-! ### Claim C8: magnitude branch precedence over applause -/

/-- C8: with crowd reactions enabled and both evaluations present, a delta
of exactly +220 takes the magnitude (> 200) branch — emitting the cue chosen
by the injected random selector — and not the deterministic applause
selection, because the magnitude test is checked first. -/
theorem crowd_magnitude_precedence (a : MoveAnalysis) (s : SoundEffectSettings) (r : ℕ)
    (ev pv : ℚ) (hen : s.enabled = true) (hcr : s.crowdEnabled = true)
    (he : a.evaluation = some ev) (hp : a.previousEvaluation = some pv)
    (hd : ev - pv = 220) :
    cuesInCategory (analyzeMoveForSounds a s r) crowd_reaction =
      [applyMasterVolume s (getRandomSound r crowd_reaction)] := by
  rw [cuesInCategory_analyze a s r crowd_reaction hen,
    cuesInCategory_eq_nil specialMoveSounds_category (by decide),
    cuesInCategory_eq_nil captureBlockSounds_category (by decide),
    crowdBlockSounds_magnitude hcr he hp (by rw [hd]; norm_num),
    cuesInCategory_eq_self (by
      intro e he'
      rw [List.mem_singleton] at he'
      subst he'
      exact getRandomSound_category r crowd_reaction)]
  simp

/-- Witness for C8 at a concrete +220 evaluation swing. -/
theorem crowd_magnitude_precedence_witness :
    (220 : ℚ) - 0 = 220 ∧
    cuesInCategory (analyzeMoveForSounds analysisBigSwing allOnSettings 7) crowd_reaction =
      [applyMasterVolume allOnSettings (getRandomSound 7 crowd_reaction)] :=
  ⟨by norm_num,
    crowd_magnitude_precedence analysisBigSwing allOnSettings 7 220 0 rfl rfl rfl rfl
      (by norm_num)⟩

/-! ### The overlap filter: basic characterizations -/

theorem hasConflict_iff (l : List SoundTrigger) (t : SoundTrigger) (W : ℤ) :
    hasConflict l t W = true ↔ ∃ k ∈ l, dominatesWithin W k t := by
  unfold hasConflict dominatesWithin
  simp [List.any_eq_true]

theorem foldl_filter_eq_filterAux (W : ℤ) :
    ∀ (ts acc : List SoundTrigger),
      ts.foldl (fun filtered trigger =>
        if hasConflict filtered trigger W then filtered else filtered ++ [trigger]) acc =
        filterAux W acc ts
  | [], _ => rfl
  | t :: rest, acc => by
    unfold filterAux
    rw [List.foldl_cons]
    by_cases h : hasConflict acc t W = true
    · rw [if_pos h, if_pos h]
      exact foldl_filter_eq_filterAux W rest acc
    · rw [if_neg h, if_neg h]
      exact foldl_filter_eq_filterAux W rest (acc ++ [t])

theorem filterOverlappingSounds_eq_filterAux (ts : List SoundTrigger) (W : ℤ) :
    filterOverlappingSounds ts W = filterAux W [] ts :=
  foldl_filter_eq_filterAux W ts []

theorem filterAux_eq_greedyKeep (W : ℤ) :
    ∀ (ts kept : List SoundTrigger), filterAux W kept ts = greedyKeep W kept ts
  | [], _ => rfl
  | c :: rest, kept => by
    unfold filterAux greedyKeep
    by_cases h : ∃ k ∈ kept, dominatesWithin W k c
    · rw [if_pos ((hasConflict_iff kept c W).mpr h), if_pos h]
      exact filterAux_eq_greedyKeep W rest kept
    · rw [if_neg (fun hc => h ((hasConflict_iff kept c W).mp hc)), if_neg h]
      exact filterAux_eq_greedyKeep W rest (kept ++ [c])

theorem filterAux_pairwise (W : ℤ) :
    ∀ (ts acc : List SoundTrigger),
      acc.Pairwise (fun k c => ¬ dominatesWithin W k c) →
      (filterAux W acc ts).Pairwise (fun k c => ¬ dominatesWithin W k c)
  | [], _, h => h
  | t :: rest, acc, h => by
    unfold filterAux
    by_cases hc : hasConflict acc t W = true
    · rw [if_pos hc]
      exact filterAux_pairwise W rest acc h
    · rw [if_neg hc]
      refine filterAux_pairwise W rest (acc ++ [t]) ?_
      rw [List.pairwise_append]
      refine ⟨h, List.pairwise_singleton _ _, ?_⟩
      intro k hk b hb
      rw [List.mem_singleton] at hb
      subst hb
      rw [hasConflict_iff] at hc
      push_neg at hc
      exact hc k hk

theorem filterAux_id_of_pairwise (W : ℤ) :
    ∀ (ts acc : List SoundTrigger),
      ts.Pairwise (fun k c => ¬ dominatesWithin W k c) →
      (∀ c ∈ ts, ∀ k ∈ acc, ¬ dominatesWithin W k c) →
      filterAux W acc ts = acc ++ ts
  | [], acc, _, _ => by simp [filterAux]
  | t :: rest, acc, hp, hacc => by
    unfold filterAux
    rw [if_neg]
    · rw [filterAux_id_of_pairwise W rest (acc ++ [t]) hp.of_cons ?_, List.append_assoc]
      · rfl
      · intro c hc k hk
        rcases List.mem_append.mp hk with hk | hk
        · exact hacc c (List.mem_cons_of_mem _ hc) k hk
        · rw [List.mem_singleton] at hk
          subst hk
          exact (List.pairwise_cons.mp hp).1 c hc
    · rw [hasConflict_iff]
      push_neg
      intro k hk
      exact hacc t (List.mem_cons_self _ _) k hk

/-- Two-element evaluation of the filter, conflicting case. -/
theorem filterOverlappingSounds_pair_conflict {a b : SoundTrigger} {W : ℤ}
    (h : dominatesWithin W a b) : filterOverlappingSounds [a, b] W = [a] := by
  rw [filterOverlappingSounds_eq_filterAux]
  have h0 : hasConflict [] a W = false := rfl
  have hc : hasConflict [a] b W = true :=
    (hasConflict_iff [a] b W).mpr ⟨a, List.mem_singleton_self a, h⟩
  unfold filterAux
  rw [if_neg (by rw [h0]; exact Bool.false_ne_true), List.nil_append]
  unfold filterAux
  rw [if_pos hc]
  rfl

/-- Two-element evaluation of the filter, non-conflicting case. -/
theorem filterOverlappingSounds_pair_clear {a b : SoundTrigger} {W : ℤ}
    (h : ¬ dominatesWithin W a b) : filterOverlappingSounds [a, b] W = [a, b] := by
  rw [filterOverlappingSounds_eq_filterAux]
  have h0 : hasConflict [] a W = false := rfl
  have hc : hasConflict [a] b W = false := by
    rw [Bool.eq_false_iff, Ne, hasConflict_iff]
    push_neg
    intro k hk
    rw [List.mem_singleton] at hk
    subst hk
    exact h
  unfold filterAux
  rw [if_neg (by rw [h0]; exact Bool.false_ne_true), List.nil_append]
  unfold filterAux
  rw [if_neg (by rw [hc]; exact Bool.false_ne_true)]
  rfl

/-! ### Claim C3: the filter equals the spec's greedy reference resolver -/

/-- C3: `filterOverlappingSounds` coincides with the greedy reference
algorithm of the spec (process in input order; keep a candidate iff no
already-kept cue within the window has higher-or-equal priority); in
particular, of two equal-priority cues within the window the earlier one is
kept and the later one discarded. -/
theorem filterOverlappingSounds_eq_greedySpec (ts : List SoundTrigger) (W : ℤ) :
    filterOverlappingSounds ts W = greedyFilterSpec ts W ∧
    (∀ a b : SoundTrigger, a.priority = b.priority → |a.startFrame - b.startFrame| < W →
      filterOverlappingSounds [a, b] W = [a]) := by
  constructor
  · rw [filterOverlappingSounds_eq_filterAux]
    exact filterAux_eq_greedyKeep W ts []
  · intro a b hpr hfr
    exact filterOverlappingSounds_pair_conflict ⟨hfr, le_of_eq hpr.symm⟩

/-- Witness for C3 on a concrete equal-priority pair 5 frames apart. -/
theorem filterOverlappingSounds_eq_greedySpec_witness :
    filterOverlappingSounds [cueLowLate, cueLowNear] 15 =
      greedyFilterSpec [cueLowLate, cueLowNear] 15 ∧
    filterOverlappingSounds [cueLowLate, cueLowNear] 15 = [cueLowLate] :=
  ⟨(filterOverlappingSounds_eq_greedySpec [cueLowLate, cueLowNear] 15).1,
    (filterOverlappingSounds_eq_greedySpec [cueLowLate, cueLowNear] 15).2 cueLowLate
      cueLowNear rfl (by decide)⟩

/-! ### Claim C10: the filter is idempotent -/

/-- C10: applying `filterOverlappingSounds` with the same window to its own
output returns that output unchanged. -/
theorem filterOverlappingSounds_idempotent (ts : List SoundTrigger) (W : ℤ) :
    filterOverlappingSounds (filterOverlappingSounds ts W) W =
      filterOverlappingSounds ts W := by
  rw [filterOverlappingSounds_eq_filterAux ts W,
    filterOverlappingSounds_eq_filterAux (filterAux W [] ts) W]
  have hp := filterAux_pairwise W ts [] List.Pairwise.nil
  have h := filterAux_id_of_pairwise W (filterAux W [] ts) [] hp (by simp)
  simpa using h

/-! ### Claim C2: window-suppression behavior on concrete pairs -/

/-- C2 counterexample: a priority-3 cue and a priority-5 cue 5 frames apart,
with the priority-3 cue first in the input: both survive the filter with
window 15, so the result is not just the priority-5 cue. -/
theorem suppression_order_counterexample :
    cueLowLate.priority = 3 ∧ cueHighEarly.priority = 5 ∧
    |cueLowLate.startFrame - cueHighEarly.startFrame| = 5 ∧
    ((filterOverlappingSounds [cueLowLate, cueHighEarly] 15).map
      fun t => (t.startFrame, t.priority)) = [(105, 3), (100, 5)] ∧
    (filterOverlappingSounds [cueLowLate, cueHighEarly] 15).length ≠ 1 := by
  decide

/-- C2 amended: when the priority-5 cue precedes the priority-3 cue in the
input (5 frames apart, window 15) only the priority-5 cue survives; two
priority-3 cues 20 frames apart both survive, in either input order. -/
theorem suppression_window_pairs (a b c d : SoundTrigger)
    (h5 : a.priority = 5) (h3 : b.priority = 3)
    (hab : |a.startFrame - b.startFrame| = 5)
    (hc3 : c.priority = 3) (hd3 : d.priority = 3)
    (hcd : |c.startFrame - d.startFrame| = 20) :
    filterOverlappingSounds [a, b] 15 = [a] ∧
    filterOverlappingSounds [c, d] 15 = [c, d] := by
  constructor
  · refine filterOverlappingSounds_pair_conflict ⟨by rw [hab]; norm_num, ?_⟩
    rw [h5, h3]
    norm_num
  · refine filterOverlappingSounds_pair_clear fun h => ?_
    rw [dominatesWithin, hcd] at h
    norm_num at h

/-- Witness for the amended C2 on concrete cue pairs. -/
theorem suppression_window_pairs_witness :
    filterOverlappingSounds [cueHighEarly, cueLowLate] 15 = [cueHighEarly] ∧
    filterOverlappingSounds [cueLowLate, cueLowFar] 15 = [cueLowLate, cueLowFar] :=
  suppression_window_pairs cueHighEarly cueLowLate cueLowLate cueLowFar rfl rfl
    (by decide) rfl rfl (by decide)

/-! ### Claim C4: ordering invariant of the final schedule -/

/-- C4: in every schedule returned by `generateSoundSchedule`, adjacent cues
`(a, b)` satisfy `a.startFrame <= b.startFrame`, and when the start frames
are equal, `a.priority >= b.priority`. -/
theorem generateSoundSchedule_ordering (oracle : ℕ → MoveFacts) (rand : ℕ → ℕ)
    (moves : List String) (evaluations : List (Option ℚ)) (settings : SoundEffectSettings)
    (fps : ℕ) :
    (generateSoundSchedule oracle rand moves evaluations settings fps).Chain'
      (fun a b => a.startFrame ≤ b.startFrame ∧
        (a.startFrame = b.startFrame → b.priority ≤ a.priority)) := by
  have hs : (generateSoundSchedule oracle rand moves evaluations settings fps).Sorted
      schedOrder :=
    List.sorted_insertionSort schedOrder _
  refine List.Pairwise.chain' (hs.imp ?_)
  intro a b hab
  unfold schedOrder at hab
  constructor
  · omega
  · omega

/-! ### Claim C1: the schedule builder does not run the resolver -/

/-- C1 counterexample: on a single checkmating queen capture, the returned
schedule keeps a priority-3 capture cue 5 frames after a priority-5
checkmate cue — inside the configured 15-frame suppression window — because
`generateSoundSchedule` never invokes `filterOverlappingSounds`. -/
theorem schedule_not_suppressed_counterexample :
    windowClear 15 (generateSoundSchedule oracleMateCapture (fun _ => 0) ["Qxh7#"] []
      allOnSettings 30) = false := by
  decide

/-- C1 amended: `generateSoundSchedule` only accumulates the stamped cues
and applies the final presentation sort; the overlap-suppression pass is not
run, so the returned schedule is a permutation of the accumulated cue list
(no cue is ever suppressed). -/
theorem generateSoundSchedule_perm_raw (oracle : ℕ → MoveFacts) (rand : ℕ → ℕ)
    (moves : List String) (evaluations : List (Option ℚ)) (settings : SoundEffectSettings)
    (fps : ℕ) :
    (generateSoundSchedule oracle rand moves evaluations settings fps).Perm
      (generateTriggersFrom oracle rand evaluations settings fps 0 moves none) :=
  List.perm_insertionSort schedOrder _

/-! ### Claim C5: atmosphere cues are not part of the schedule -/

theorem analyzeMoveForSounds_not_atmosphere (a : MoveAnalysis) (s : SoundEffectSettings)
    (r : ℕ) : ∀ e ∈ analyzeMoveForSounds a s r, e.category ≠ atmosphere := by
  intro e he
  unfold analyzeMoveForSounds at he
  split_ifs at he
  · simp at he
  · rw [List.mem_map] at he
    rcases he with ⟨e', he', rfl⟩
    rw [applyMasterVolume_category]
    rcases List.mem_append.mp he' with h' | h'
    · rcases List.mem_append.mp h' with h'' | h''
      · rw [specialMoveSounds_category e' h'']
        decide
      · rw [captureBlockSounds_category e' h'']
        decide
    · rw [crowdBlockSounds_category e' h']
      decide

theorem generateTriggersFrom_not_atmosphere (oracle : ℕ → MoveFacts) (rand : ℕ → ℕ)
    (evaluations : List (Option ℚ)) (settings : SoundEffectSettings) (fps : ℕ) :
    ∀ (ms : List String) (index : ℕ) (prev : Option ℚ),
      ∀ t ∈ generateTriggersFrom oracle rand evaluations settings fps index ms prev,
        t.soundEffect.category ≠ atmosphere
  | [], _, _ => by simp [generateTriggersFrom]
  | m :: rest, index, prev => by
    intro t ht
    simp only [generateTriggersFrom, List.mem_append, List.mem_map] at ht
    rcases ht with ⟨p, hp, rfl⟩ | h
    · exact analyzeMoveForSounds_not_atmosphere _ _ _ p.2 (List.snd_mem_of_mem_enum hp)
    · exact generateTriggersFrom_not_atmosphere oracle rand evaluations settings fps rest
        (index + 1) (evalAt evaluations index) t h

/-- C5 counterexample: with the ambient and master enables both on, a
nonempty schedule (two cues) contains no atmosphere-category cue at all —
`generateSoundSchedule` never queries or appends the ambient cues. -/
theorem schedule_no_atmosphere_counterexample :
    allOnSettings.atmosphereEnabled = true ∧ allOnSettings.enabled = true ∧
    (generateSoundSchedule oracleMateCapture (fun _ => 0) ["Qxh7#"] []
      allOnSettings 30).length = 2 ∧
    (generateSoundSchedule oracleMateCapture (fun _ => 0) ["Qxh7#"] []
      allOnSettings 30).countP (fun t => decide (t.soundEffect.category = atmosphere)) = 0 := by
  decide

/-- C5 amended: `generateSoundSchedule` never emits an atmosphere-category
cue for any input; the ambient cues are produced only by the separate
`getAtmosphereSounds` query, which (with ambient and master enables on)
returns exactly the fixed tournament-hall cue for the consumer to place
independently of the events. -/
theorem schedule_atmosphere_separate (oracle : ℕ → MoveFacts) (rand : ℕ → ℕ)
    (moves : List String) (evaluations : List (Option ℚ)) (settings : SoundEffectSettings)
    (fps : ℕ) :
    (∀ t ∈ generateSoundSchedule oracle rand moves evaluations settings fps,
      t.soundEffect.category ≠ atmosphere) ∧
    (∀ (phase : GamePhase) (s : SoundEffectSettings), s.atmosphereEnabled = true →
      s.enabled = true →
      (getAtmosphereSounds phase s).map SoundEffect.id = ["tournament-hall"]) := by
  constructor
  · intro t ht
    rw [generateSoundSchedule, List.mem_insertionSort] at ht
    exact generateTriggersFrom_not_atmosphere oracle rand evaluations settings fps moves 0
      none t ht
  · intro phase s h1 h2
    unfold getAtmosphereSounds
    rw [h1, h2, getSoundEffect_hall]
    simp
    rfl

/-- Witness for the amended C5 at a concrete input. -/
theorem schedule_atmosphere_separate_witness :
    (∀ t ∈ generateSoundSchedule oracleMateCapture (fun _ => 0) ["Qxh7#"] []
        allOnSettings 30, t.soundEffect.category ≠ atmosphere) ∧
    (getAtmosphereSounds GamePhase.opening allOnSettings).map SoundEffect.id =
      ["tournament-hall"] :=
  ⟨(schedule_atmosphere_separate oracleMateCapture (fun _ => 0) ["Qxh7#"] []
      allOnSettings 30).1,
    (schedule_atmosphere_separate oracleMateCapture (fun _ => 0) ["Qxh7#"] []
      allOnSettings 30).2 GamePhase.opening allOnSettings rfl rfl⟩

/-! ### Claim C9: frame stamping of produced cues -/

theorem flatMap_congr_fn {α β : Type} (l : List α) (f g : α → List β)
    (h : ∀ a ∈ l, f a = g a) : l.flatMap f = l.flatMap g := by
  induction l with
  | nil => rfl
  | cons x xs ih =>
    rw [List.flatMap_cons, List.flatMap_cons, h x (List.mem_cons_self x xs),
      ih fun a ha => h a (List.mem_cons_of_mem x ha)]

/-- Closed form of the event loop: starting at absolute index `index` with
threaded previous evaluation `prev`, the accumulated triggers are the
per-event cue blocks, each stamped from its event's base frame with the
5-frame intra-event stagger. -/
theorem generateTriggersFrom_flatMap (oracle : ℕ → MoveFacts) (rand : ℕ → ℕ)
    (evaluations : List (Option ℚ)) (settings : SoundEffectSettings) (fps : ℕ) :
    ∀ (ms : List String) (index : ℕ) (prev : Option ℚ),
      generateTriggersFrom oracle rand evaluations settings fps index ms prev =
        (List.range ms.length).flatMap fun k =>
          (analyzeMoveForSounds
              (parseMoveForAnalysis (oracle (index + k)) (ms.getD k "") (index + k + 1)
                (if k = 0 then prev else evalAt evaluations (index + k - 1))
                (evalAt evaluations (index + k)))
              settings (rand (index + k))).enum.map fun p =>
            { soundEffect := p.2
              startFrame := calculateSoundFrameTiming (index + k) fps 90 30 + (p.1 : ℤ) * 5
              priority := getPriority p.2 }
  | [], index, prev => by simp [generateTriggersFrom]
  | m :: rest, index, prev => by
    have IH := generateTriggersFrom_flatMap oracle rand evaluations settings fps rest
      (index + 1) (evalAt evaluations index)
    simp only [generateTriggersFrom]
    rw [IH, List.length_cons, List.range_succ_eq_map, List.flatMap_cons, List.flatMap_map]
    congr 1
    refine flatMap_congr_fn _ _ _ fun k hk => ?_
    simp only [Function.comp, Nat.succ_eq_add_one]
    rw [List.getD_cons_succ, if_neg (Nat.succ_ne_zero k)]
    have h2 : index + (k + 1) - 1 = index + k := by omega
    rw [h2]
    have hif : (if k = 0 then evalAt evaluations index
        else evalAt evaluations (index + 1 + k - 1)) = evalAt evaluations (index + k) := by
      cases k with
      | zero => simp
      | succ j =>
        have hj : index + 1 + (j + 1) - 1 = index + (j + 1) := by omega
        rw [if_neg (Nat.succ_ne_zero j), hj]
    rw [hif]
    have h1 : index + 1 + k = index + (k + 1) := by omega
    rw [h1]

/-- C9: in every run of the schedule builder, the `j`-th cue (0-based)
produced for the event with 1-based sequence index `s` — 0-based index
`i = s - 1` — is stamped `startFrame = 90 + i * 30 + j * 5` (lead-in 90
frames, 30 frames per event, 5-frame intra-event stagger), and within one
event the stamped start frames of distinct cue positions are pairwise
distinct, so such cues are never exactly simultaneous. -/
theorem generateTriggers_frame_stamping (oracle : ℕ → MoveFacts) (rand : ℕ → ℕ)
    (moves : List String) (evaluations : List (Option ℚ)) (settings : SoundEffectSettings)
    (fps : ℕ) :
    (generateTriggersFrom oracle rand evaluations settings fps 0 moves none =
      (List.range moves.length).flatMap fun i =>
        (eventSounds oracle rand evaluations settings moves i).enum.map fun p =>
          { soundEffect := p.2
            startFrame := 90 + (i : ℤ) * 30 + (p.1 : ℤ) * 5
            priority := getPriority p.2 }) ∧
    ∀ i : ℕ, ((eventSounds oracle rand evaluations settings moves i).enum.map fun p =>
        (90 : ℤ) + (i : ℤ) * 30 + (p.1 : ℤ) * 5).Nodup := by
  constructor
  · rw [generateTriggersFrom_flatMap oracle rand evaluations settings fps moves 0 none]
    refine flatMap_congr_fn _ _ _ fun i hi => ?_
    simp only [eventSounds, Nat.zero_add, calculateSoundFrameTiming, Nat.cast_ofNat]
  · intro i
    have heq : ((eventSounds oracle rand evaluations settings moves i).enum.map fun p =>
        (90 : ℤ) + (i : ℤ) * 30 + (p.1 : ℤ) * 5) =
        ((eventSounds oracle rand evaluations settings moves i).enum.map Prod.fst).map
          (fun j : ℕ => (90 : ℤ) + (i : ℤ) * 30 + (j : ℤ) * 5) := by
      rw [List.map_map]
      rfl
    rw [heq, List.enum_map_fst]
    refine (List.nodup_range _).map fun x y hxy => ?_
    omega
